import Mathlib

/-!
Verification development for the creator settlement-report generator
(`app.py`).  The pipeline ingests a statistics table whose first row is a
declared summary, recomputes per-creator totals, applies commission rates,
selects a top-50 subset per creator, renders reports, and tracks failures
per creator.  Numeric cells are modelled as exact rationals; machine floats
in the source hold sums and products of spreadsheet numbers, and every
property below concerns exact arithmetic on those values.
-/

namespace Excel2Report

/-! ### Python scalar values and numeric coercion (`clean_numeric_value`) -/

/-- Scalar cell value as seen by `clean_numeric_value`: `blank` models
`None`/`NaN` (everything `pd.isna` accepts), `str` a Python string, and
`num` an int/float numeric value (exact rational model). -/
inductive PyValue where
  | blank : PyValue
  | str : String → PyValue
  | num : ℚ → PyValue
deriving DecidableEq

/-- Truncation toward zero: the behaviour of Python `int()` on a float,
modelled on exact rationals. -/
def pyInt (q : ℚ) : ℤ := if 0 ≤ q then ⌊q⌋ else ⌈q⌉

/-- Comma removal performed by `value.replace(',', '')` in
`clean_numeric_value`. -/
def stripCommas (s : String) : String :=
  String.mk (s.data.filter (fun c => decide (c ≠ ',')))

/-- Leading/trailing whitespace removal performed by Python `float()` on
its string argument. -/
def stripSpaces (cs : List Char) : List Char :=
  ((cs.dropWhile Char.isWhitespace).reverse.dropWhile Char.isWhitespace).reverse

/-- Numeric value of a digit string (most significant digit first). -/
def digitsVal (ds : List Char) : ℕ :=
  ds.foldl (fun a c => a * 10 + (c.toNat - 48)) 0

/-- Optional sign accepted by Python `float()`. -/
def parseSign : List Char → ℚ × List Char
  | '-' :: rest => (-1, rest)
  | '+' :: rest => (1, rest)
  | cs => (1, cs)

/-- Decimal fragment of Python `float()` on a string: optional sign, then
digits with at most one decimal point and at least one digit.  Exponent
forms and the `inf`/`nan` literals never occur in the spreadsheet data and
are outside the modelled grammar (they are treated as unparseable). -/
def parseFloat (s : String) : Option ℚ :=
  let sc := parseSign (stripSpaces s.data)
  let ip := sc.2.takeWhile Char.isDigit
  match sc.2.dropWhile Char.isDigit with
  | [] => if ip.isEmpty then none else some (sc.1 * (digitsVal ip : ℚ))
  | '.' :: fr =>
      if fr.all Char.isDigit && !(ip.isEmpty && fr.isEmpty) then
        some (sc.1 * ((digitsVal ip : ℚ) + (digitsVal fr : ℚ) / (10 ^ fr.length)))
      else none
  | _ => none

/-- Embedding of `clean_numeric_value` (app.py lines 103-112): `NaN`-like
inputs give 0; strings are comma-stripped and parsed as a float, with 0 on
parse failure; the parsed or numeric value is truncated by `int()`. -/
def clean_numeric_value : PyValue → ℤ
  | .blank => 0
  | .str s =>
      match parseFloat (stripCommas s) with
      | some q => pyInt q
      | none => 0
  | .num q => pyInt q

/-! ### Tabular data model

A `Row` is one line of the uploaded statistics table (`input_df`): creator
id column, video title, view count and gross partner revenue.  An absent
(`NaN`) cell of a numeric column is `none`; an absent title is `none`. -/

structure Row where
  id : String
  title : Option String
  views : Option ℚ
  revenue : Option ℚ
deriving DecidableEq

/-- Row after `fillna(0)` on the two numeric columns (app.py lines
372-373). -/
structure CRow where
  id : String
  title : Option String
  views : ℚ
  revenue : ℚ
deriving DecidableEq

/-- Row of the per-creator spreadsheet export, carrying the extra
commission-adjusted revenue column added at app.py line 384.  The
synthetic total row has no creator id (`none`). -/
structure SRow where
  id : Option String
  title : Option String
  views : ℚ
  revenue : ℚ
  revenueAfter : ℚ
deriving DecidableEq

/-- fillna(0) on the numeric columns of one row. -/
def fillna (r : Row) : CRow :=
  ⟨r.id, r.title, r.views.getD 0, r.revenue.getD 0⟩

/-- Sum of the view column of raw rows; pandas `.sum()` skips NaN cells,
which is the same as treating them as 0. -/
def sumViewsRaw (l : List Row) : ℚ := (l.map (fun r => r.views.getD 0)).sum

/-- Sum of the revenue column of raw rows (NaN skipped). -/
def sumRevenueRaw (l : List Row) : ℚ := (l.map (fun r => r.revenue.getD 0)).sum

/-- Sum of the view column after fillna. -/
def sumViews (l : List CRow) : ℚ := (l.map CRow.views).sum

/-- Sum of the revenue column after fillna. -/
def sumRevenue (l : List CRow) : ℚ := (l.map CRow.revenue).sum

/-! ### Selector: `creator_data.nlargest(50, '조회수')`

pandas `nlargest(n, col)` with the default `keep='first'` is a stable
descending sort on the column followed by `head(n)`: ties keep their
original input order and earlier rows win at the cutoff.  The sort is
implemented here as a stable insertion sort: an element passes over
strictly larger keys and stops in front of the first element whose key is
not strictly larger, so equal keys stay in input order. -/

/-- Stable descending insertion of one row by view count. -/
def insertDesc (x : CRow) : List CRow → List CRow
  | [] => [x]
  | y :: ys => if x.views < y.views then y :: insertDesc x ys else x :: y :: ys

/-- Stable descending sort of rows by view count. -/
def sortDesc : List CRow → List CRow
  | [] => []
  | x :: xs => insertDesc x (sortDesc xs)

/-- Embedding of `creator_data.nlargest(50, '조회수')` (app.py line 383). -/
def nlargest50 (l : List CRow) : List CRow := (sortDesc l).take 50

/-! ### DataValidator (app.py lines 25-83) -/

/-- Summary row promoted from the first data line
(`original_df.iloc[0]`). -/
def summary_row (df : List Row) : Row := df.headD ⟨"", none, none, none⟩

/-- Data rows: everything after the summary row
(`original_df.iloc[1:]`). -/
def data_rows (df : List Row) : List Row := df.drop 1

/-- Distinct creator ids occurring in a set of rows (the group keys of
`groupby('아이디')`; pandas orders the keys by id, but no property below
depends on the order of the grouped table). -/
def uniqueIds (l : List Row) : List String := (l.map Row.id).dedup

/-- Rows of `_calculate_creator_stats` (app.py lines 61-67): per creator
id, the summed views and summed revenue over the data rows. -/
def calculate_creator_stats (df : List Row) : List (String × ℚ × ℚ) :=
  (uniqueIds (data_rows df)).map (fun cid =>
    (cid, sumViewsRaw ((data_rows df).filter (fun r => decide (r.id = cid))),
      sumRevenueRaw ((data_rows df).filter (fun r => decide (r.id = cid)))))

/-- Tolerance comparison used by every reconciliation check in the source
(`abs(a - b) < 1`, app.py lines 78-82, 148-149 and 542-543). -/
def tolMatches (a b : ℚ) : Bool := decide (|a - b| < 1)

/-- One row of the merged per-creator comparison table produced by
`compare_creator_stats`. -/
structure CompRow where
  id : String
  viewsOriginal : ℚ
  viewsProcessed : ℚ
  revenueOriginal : ℚ
  revenueProcessed : ℚ
  views_match : Bool
  revenue_match : Bool
deriving DecidableEq

/-- Embedding of `DataValidator.compare_creator_stats` (app.py lines
69-83).  The source computes `processed_creator_stats` by calling
`self._calculate_creator_stats()` again on `self.data_rows`, so the
`processed_df` argument is never consulted; the merge then joins the
original statistics with a second copy of themselves.  The unused
argument is kept to mirror the source signature. -/
def compare_creator_stats (df : List Row) (processed_df : List Row) : List CompRow :=
  let original := calculate_creator_stats df
  let processed := calculate_creator_stats df
  original.flatMap (fun o =>
    (processed.filter (fun p => decide (p.1 = o.1))).map (fun p =>
      ⟨o.1, o.2.1, p.2.1, o.2.2, p.2.2,
        tolMatches o.2.1 p.2.1, tolMatches o.2.2 p.2.2⟩))

/-- Dataset-level views check of `main` (app.py line 542): declared
summary views against the recomputed data-row total.  A NaN summary cell
makes the Python comparison false. -/
def dataset_views_match (df : List Row) : Bool :=
  match (summary_row df).views with
  | some v => tolMatches v (sumViewsRaw (data_rows df))
  | none => false

/-- Dataset-level revenue check of `main` (app.py line 543). -/
def dataset_revenue_match (df : List Row) : Bool :=
  match (summary_row df).revenue with
  | some v => tolMatches v (sumRevenueRaw (data_rows df))
  | none => false

/-! ### Report assembly (app.py lines 204-234, 386-409) -/

/-- One line item of the structured report payload built by
`create_video_data`. -/
structure ReportVideo where
  title : String
  views : ℤ
  revenueBefore : ℤ
  revenueAfter : ℤ
deriving DecidableEq

/-- Structured report payload handed to the document renderer
(`report_data` at app.py lines 402-409; the reporting period is a display
string and not modelled). -/
structure ReportData where
  creatorName : String
  totalRevenueBefore : ℤ
  totalRevenue : ℤ
  totalViews : ℤ
  videoData : List ReportVideo
deriving DecidableEq

/-- Embedding of `create_video_data` (app.py lines 204-217): rows without
a title are skipped; the numeric cells go through
`clean_numeric_value`. -/
def create_video_data (rows : List SRow) : List ReportVideo :=
  rows.filterMap (fun r =>
    match r.title with
    | none => none
    | some t => some ⟨t, clean_numeric_value (.num r.views),
        clean_numeric_value (.num r.revenue), clean_numeric_value (.num r.revenueAfter)⟩)

/-! ### Batch orchestrator (`process_data`, app.py lines 336-491) -/

/-- Inputs and collaborator behaviour of one batch run.  `df` is
`input_df` (first row the declared summary), `creators` the directory
order of `creator_info_handler.get_all_creator_ids()`, `rate` and `email`
the directory lookups.  `sendEmail` models `send_email and email_user and
email_password` all being truthy; an absent or empty address cell is
`email = none`.  `renderOk` tells whether the template rendering inside
`generate_html_report` succeeds for a creator (on failure the function
catches the exception and returns `None`); `notifyOk` tells whether the
SMTP hand-off succeeds. -/
structure Env where
  df : List Row
  creators : List String
  rate : String → ℚ
  email : String → Option String
  sendEmail : Bool
  renderOk : String → Bool
  notifyOk : String → Bool

/-- Accumulated state of one batch run: the report map, the spreadsheet
map, the concatenated processed rows, the failed-creator list, and the
trace of progress updates written to the progress sink. -/
structure BatchState where
  reports : List (String × ReportData)
  excels : List (String × List SRow)
  processed : List CRow
  failed : List String
  progress : List (ℕ × ℕ)
deriving DecidableEq

/-- Creator rows selected from the full input table (app.py line 366:
`input_df[input_df['아이디'] == creator_id]`), after fillna. -/
def cdataOf (env : Env) (cid : String) : List CRow :=
  (env.df.filter (fun r => decide (r.id = cid))).map fillna

/-- total_views of one creator (app.py line 376). -/
def total_views_of (cdata : List CRow) : ℤ :=
  clean_numeric_value (.num (sumViews cdata))

/-- total_revenue_before of one creator (app.py line 377). -/
def total_revenue_before_of (cdata : List CRow) : ℤ :=
  clean_numeric_value (.num (sumRevenue cdata))

/-- total_revenue_after of one creator (app.py line 378:
`int(total_revenue_before * commission_rate)`). -/
def total_revenue_after_of (cdata : List CRow) (rate : ℚ) : ℤ :=
  pyInt ((total_revenue_before_of cdata : ℚ) * rate)

/-- Top-50 line items with the commission column (app.py lines
383-384). -/
def lineItems (cdata : List CRow) (rate : ℚ) : List SRow :=
  (nlargest50 cdata).map (fun r => ⟨some r.id, r.title, r.views, r.revenue, r.revenue * rate⟩)

/-- Synthetic total row (app.py lines 387-392); its id cell is absent and
its values are the full-set totals. -/
def totalRowOf (cdata : List CRow) (rate : ℚ) : SRow :=
  ⟨none, some "총계", (total_views_of cdata : ℚ), (total_revenue_before_of cdata : ℚ),
    (total_revenue_after_of cdata rate : ℚ)⟩

/-- Rows written to the per-creator spreadsheet (app.py line 393). -/
def excelRowsOf (cdata : List CRow) (rate : ℚ) : List SRow :=
  lineItems cdata rate ++ [totalRowOf cdata rate]

/-- Report payload of one creator (app.py lines 402-409); `videoData` is
built from `filtered_data[:-1]`, the spreadsheet rows without the total
row. -/
def reportDataOf (env : Env) (cid : String) : ReportData :=
  ⟨cid, total_revenue_before_of (cdataOf env cid),
    total_revenue_after_of (cdataOf env cid) (env.rate cid),
    total_views_of (cdataOf env cid),
    create_video_data ((excelRowsOf (cdataOf env cid) (env.rate cid)).dropLast)⟩

/-- One iteration of the per-creator loop (app.py lines 357-465) run from
state `st` on the enumerated creator `p = (idx, cid)`.  Progress is
written first; an empty creator selection marks the creator failed and
continues; otherwise the totals, spreadsheet and report payload are
produced, the report is recorded only when rendering succeeds, and the
email hand-off appends to the failed list when it raises (which happens
when the SMTP send fails, and also when the report is `None`, since
attaching `html_content` then raises before sending). -/
def processOne (env : Env) (total : ℕ) (st : BatchState) (p : ℕ × String) : BatchState :=
  let cid := p.2
  let st0 : BatchState := { st with progress := st.progress ++ [(p.1 + 1, total)] }
  if (env.df.filter (fun r => decide (r.id = cid))).isEmpty then
    { st0 with failed := st0.failed ++ [cid] }
  else
    let cdata := cdataOf env cid
    let st1 : BatchState := { st0 with processed := st0.processed ++ cdata }
    let st2 : BatchState :=
      { st1 with excels := st1.excels ++ [(cid ++ ".xlsx", excelRowsOf cdata (env.rate cid))] }
    let st3 : BatchState :=
      if env.renderOk cid then
        { st2 with reports := st2.reports ++ [(cid ++ "_report.html", reportDataOf env cid)] }
      else st2
    if env.sendEmail then
      match env.email cid with
      | some _ =>
          if env.renderOk cid && env.notifyOk cid then st3
          else { st3 with failed := st3.failed ++ [cid] }
      | none => st3
    else st3

/-- Embedding of `process_data` (app.py lines 336-491): fold the
per-creator loop over the directory ids in order, then write the final
`total/total` progress update (app.py line 470).  The zip bundling and the
validation display consume this state and add nothing to it. -/
def process_data (env : Env) : BatchState :=
  let total := env.creators.length
  let looped := (env.creators.enum).foldl (processOne env total) ⟨[], [], [], [], []⟩
  { looped with progress := looped.progress ++ [(total, total)] }

/-! ### Per-creator contributions of one loop iteration

Each field of the batch state grows by a per-creator contribution that
depends only on the environment and the creator id; the next four
definitions name those contributions and the lemmas after them prove that
`processOne` and the whole run decompose accordingly. -/

/-- Failed-list contribution of one creator: marked failed when it has no
rows, or when the email hand-off raises (enabled mail, an address on
file, and either the SMTP send fails or there is no rendered report to
attach). -/
def failsOf (env : Env) (cid : String) : List String :=
  if (env.df.filter (fun r => decide (r.id = cid))).isEmpty then [cid]
  else if env.sendEmail && (env.email cid).isSome &&
      !(env.renderOk cid && env.notifyOk cid) then [cid]
  else []

/-- Report-map contribution of one creator: present only when the
creator has rows and rendering succeeds. -/
def reportsOf (env : Env) (cid : String) : List (String × ReportData) :=
  if (env.df.filter (fun r => decide (r.id = cid))).isEmpty then []
  else if env.renderOk cid then [(cid ++ "_report.html", reportDataOf env cid)]
  else []

/-- Spreadsheet-map contribution of one creator. -/
def excelsOf (env : Env) (cid : String) : List (String × List SRow) :=
  if (env.df.filter (fun r => decide (r.id = cid))).isEmpty then []
  else [(cid ++ ".xlsx", excelRowsOf (cdataOf env cid) (env.rate cid))]

/-- Processed-rows contribution of one creator. -/
def processedOf (env : Env) (cid : String) : List CRow :=
  if (env.df.filter (fun r => decide (r.id = cid))).isEmpty then []
  else cdataOf env cid

lemma processOne_eq (env : Env) (total : ℕ) (st : BatchState) (p : ℕ × String) :
    processOne env total st p =
      ⟨st.reports ++ reportsOf env p.2, st.excels ++ excelsOf env p.2,
        st.processed ++ processedOf env p.2, st.failed ++ failsOf env p.2,
        st.progress ++ [(p.1 + 1, total)]⟩ := by
  unfold processOne failsOf reportsOf excelsOf processedOf
  by_cases hemp : (env.df.filter (fun r => decide (r.id = p.2))).isEmpty
  · simp [hemp]
  · by_cases hrok : env.renderOk p.2 <;>
      by_cases hsend : env.sendEmail <;>
        cases hmail : env.email p.2 <;>
          by_cases hnot : env.notifyOk p.2 <;>
            simp [hemp, hrok, hsend, hmail, hnot]

lemma foldl_processOne (env : Env) (total : ℕ) :
    ∀ (l : List String) (n : ℕ) (st : BatchState),
      (l.enumFrom n).foldl (processOne env total) st =
        ⟨st.reports ++ l.flatMap (reportsOf env), st.excels ++ l.flatMap (excelsOf env),
          st.processed ++ l.flatMap (processedOf env), st.failed ++ l.flatMap (failsOf env),
          st.progress ++ (l.enumFrom n).map (fun q => (q.1 + 1, total))⟩
  | [], n, st => by simp
  | c :: l, n, st => by
    rw [List.enumFrom_cons, List.foldl_cons, processOne_eq,
      foldl_processOne env total l (n + 1)]
    simp [List.append_assoc]

/-- Closed form of a whole batch run. -/
lemma process_data_eq (env : Env) :
    process_data env =
      ⟨env.creators.flatMap (reportsOf env), env.creators.flatMap (excelsOf env),
        env.creators.flatMap (processedOf env), env.creators.flatMap (failsOf env),
        (env.creators.enumFrom 0).map (fun q => (q.1 + 1, env.creators.length)) ++
          [(env.creators.length, env.creators.length)]⟩ := by
  have h := foldl_processOne env env.creators.length env.creators 0 ⟨[], [], [], [], []⟩
  simp only [process_data, List.enum]
  rw [h]
  simp

/-! ### Selector lemmas -/

lemma mem_insertDesc {x a : CRow} : ∀ {l : List CRow}, a ∈ insertDesc x l ↔ a = x ∨ a ∈ l
  | [] => by simp [insertDesc]
  | y :: ys => by
    rw [insertDesc]
    split
    · simp only [List.mem_cons, mem_insertDesc (l := ys)]
      tauto
    · simp only [List.mem_cons]

lemma sorted_insertDesc {x : CRow} {l : List CRow}
    (h : l.Pairwise (fun a b => b.views ≤ a.views)) :
    (insertDesc x l).Pairwise (fun a b => b.views ≤ a.views) := by
  induction l with
  | nil => simp [insertDesc]
  | cons y ys ih =>
    rw [insertDesc]
    have hy := List.pairwise_cons.mp h
    split
    · rename_i hlt
      refine List.pairwise_cons.mpr ⟨?_, ih hy.2⟩
      intro z hz
      rcases mem_insertDesc.mp hz with rfl | hz
      · exact le_of_lt hlt
      · exact hy.1 z hz
    · rename_i hge
      push_neg at hge
      refine List.pairwise_cons.mpr ⟨?_, h⟩
      intro z hz
      rcases List.mem_cons.mp hz with rfl | hz
      · exact hge
      · exact le_trans (hy.1 z hz) hge

lemma sorted_sortDesc (l : List CRow) :
    (sortDesc l).Pairwise (fun a b => b.views ≤ a.views) := by
  induction l with
  | nil => simp [sortDesc]
  | cons x xs ih => exact sorted_insertDesc ih

lemma filter_insertDesc (x : CRow) (l : List CRow) (v : ℚ) :
    (insertDesc x l).filter (fun r => decide (r.views = v)) =
      if x.views = v then x :: l.filter (fun r => decide (r.views = v))
      else l.filter (fun r => decide (r.views = v)) := by
  induction l with
  | nil =>
    by_cases hx : x.views = v <;> simp [insertDesc, List.filter, hx]
  | cons y ys ih =>
    rw [insertDesc]
    split
    · rename_i hlt
      rw [List.filter_cons, ih]
      by_cases hx : x.views = v
      · have hyv : ¬(y.views = v) := by
          rw [← hx]
          exact ne_of_gt hlt
        simp [hx, hyv, List.filter_cons]
      · by_cases hyv : y.views = v <;> simp [hx, hyv, List.filter_cons]
    · by_cases hx : x.views = v <;> simp [hx, List.filter_cons]

lemma filter_sortDesc (l : List CRow) (v : ℚ) :
    (sortDesc l).filter (fun r => decide (r.views = v)) =
      l.filter (fun r => decide (r.views = v)) := by
  induction l with
  | nil => rfl
  | cons x xs ih =>
    rw [sortDesc, filter_insertDesc, List.filter_cons]
    by_cases hx : x.views = v <;> simp [hx, ih]

lemma length_insertDesc (x : CRow) (l : List CRow) :
    (insertDesc x l).length = l.length + 1 := by
  induction l with
  | nil => rfl
  | cons y ys ih =>
    rw [insertDesc]
    split <;> simp [ih]

lemma length_sortDesc (l : List CRow) : (sortDesc l).length = l.length := by
  induction l with
  | nil => rfl
  | cons x xs ih => rw [sortDesc, length_insertDesc, ih, List.length_cons]

/-! ### Helper lemmas -/

lemma stripCommas_stripCommas (s : String) : stripCommas (stripCommas s) = stripCommas s := by
  simp [stripCommas, List.filter_filter]

lemma abs_sub_pyInt_lt_one (q : ℚ) : |q - (pyInt q : ℚ)| < 1 := by
  rw [pyInt]
  split
  · rw [abs_of_nonneg (sub_nonneg.mpr (Int.floor_le q))]
    have := Int.lt_floor_add_one q
    linarith
  · rw [abs_of_nonpos (sub_nonpos.mpr (Int.le_ceil q))]
    have := Int.ceil_lt_add_one q
    linarith

lemma abs_pyInt_le (q : ℚ) : |(pyInt q : ℚ)| ≤ |q| := by
  rw [pyInt]
  split
  · rename_i h
    have h0 : (0 : ℚ) ≤ (⌊q⌋ : ℚ) := by
      exact_mod_cast Int.floor_nonneg.mpr h
    rw [abs_of_nonneg h, abs_of_nonneg h0]
    exact Int.floor_le q
  · rename_i h
    push_neg at h
    have h0 : ((⌈q⌉ : ℚ)) ≤ 0 := by
      have : ⌈q⌉ ≤ (0 : ℤ) := Int.ceil_le.mpr (by exact_mod_cast h.le)
      exact_mod_cast this
    rw [abs_of_neg h, abs_of_nonpos h0]
    have := Int.le_ceil q
    linarith

lemma append_cancel_suffix {a b s : String} (h : a ++ s = b ++ s) : a = b := by
  apply String.ext
  have hd := congrArg String.data h
  simp only [String.data_append] at hd
  exact List.append_cancel_right hd

lemma count_failsOf_ne (env : Env) {c cid : String} (h : c ≠ cid) :
    (failsOf env c).count cid = 0 := by
  unfold failsOf
  split
  · exact List.count_eq_zero.mpr (by simp [Ne.symm h])
  · split
    · exact List.count_eq_zero.mpr (by simp [Ne.symm h])
    · simp

lemma count_flatMap_failsOf (env : Env) (cid : String) :
    ∀ l : List String,
      (l.flatMap (failsOf env)).count cid = l.count cid * (failsOf env cid).length
  | [] => by simp
  | c :: l => by
    rw [List.flatMap_cons, List.count_append, count_flatMap_failsOf env cid l,
      List.count_cons]
    by_cases hc : c = cid
    · subst hc
      have hcc : (failsOf env c).count c = (failsOf env c).length := by
        unfold failsOf
        split
        · simp
        · split <;> simp
      simp only [hcc, beq_self_eq_true, if_true]
      ring
    · rw [count_failsOf_ne env hc]
      simp [hc]

lemma failsOf_subset (env : Env) (c : String) : ∀ x ∈ failsOf env c, x = c := by
  intro x hx
  unfold failsOf at hx
  split at hx
  · simpa using hx
  · split at hx
    · simpa using hx
    · simp at hx

lemma reportsOf_key (env : Env) (c : String) :
    ∀ kv ∈ reportsOf env c, kv.1 = c ++ "_report.html" := by
  intro kv hkv
  unfold reportsOf at hkv
  split at hkv
  · simp at hkv
  · split at hkv
    · rw [List.mem_singleton.mp hkv]
    · simp at hkv

lemma excelsOf_key (env : Env) (c : String) :
    ∀ kv ∈ excelsOf env c, kv.1 = c ++ ".xlsx" := by
  intro kv hkv
  unfold excelsOf at hkv
  split at hkv
  · simp at hkv
  · rw [List.mem_singleton.mp hkv]

/-! ### Claim theorems -/

/-- C9: `clean_numeric_value` maps every blank/NaN input to 0, strips
commas from string inputs before parsing, returns 0 for every input that
is unparseable as a number, and otherwise truncates the parsed number
toward an integer (the result is within distance 1 of the value and no
larger in absolute value). -/
theorem clean_numeric_value_spec :
    clean_numeric_value PyValue.blank = 0
    ∧ (∀ s : String,
        clean_numeric_value (.str s) = clean_numeric_value (.str (stripCommas s)))
    ∧ (∀ s : String, parseFloat (stripCommas s) = none → clean_numeric_value (.str s) = 0)
    ∧ (∀ (s : String) (q : ℚ), parseFloat (stripCommas s) = some q →
        clean_numeric_value (.str s) = clean_numeric_value (.num q))
    ∧ (∀ q : ℚ, |q - (clean_numeric_value (.num q) : ℚ)| < 1
        ∧ |(clean_numeric_value (.num q) : ℚ)| ≤ |q|) := by
  refine ⟨rfl, ?_, ?_, ?_, ?_⟩
  · intro s
    simp only [clean_numeric_value]
    rw [stripCommas_stripCommas]
  · intro s h
    simp only [clean_numeric_value, h]
  · intro s q h
    simp only [clean_numeric_value, h]
  · intro q
    exact ⟨abs_sub_pyInt_lt_one q, abs_pyInt_le q⟩

/-- Witness for C9 at concrete inputs: the comma-formatted string
"1,234.56" parses to 30864/25 after comma-stripping and coerces to 1234,
and the unparseable string "12.3.4" coerces to 0. -/
theorem clean_numeric_value_spec_witness :
    parseFloat (stripCommas "1,234.56") = some (30864 / 25)
    ∧ clean_numeric_value (.str "1,234.56") = 1234
    ∧ parseFloat (stripCommas "12.3.4") = none
    ∧ clean_numeric_value (.str "12.3.4") = 0 := by
  have hp : parseFloat (stripCommas "1,234.56") = some (30864 / 25) := by
    simp +decide [parseFloat, stripCommas, stripSpaces, parseSign, digitsVal]
    norm_num
  have hn : parseFloat (stripCommas "12.3.4") = none := by
    simp +decide [parseFloat, stripCommas, stripSpaces, parseSign, digitsVal]
  refine ⟨hp, ?_, hn, clean_numeric_value_spec.2.2.1 "12.3.4" hn⟩
  rw [clean_numeric_value_spec.2.2.2.1 "1,234.56" (30864 / 25) hp]
  show pyInt (30864 / 25) = 1234
  norm_num [pyInt]

/-- C10 counterexample: the parseable numeric input -1/2 represents a
negative value, but `clean_numeric_value` returns 0 on it, which is not a
negative integer. -/
theorem clean_numeric_value_neg_half :
    ((-1 : ℚ) / 2) < 0 ∧ clean_numeric_value (.num ((-1 : ℚ) / 2)) = 0
    ∧ ¬ clean_numeric_value (.num ((-1 : ℚ) / 2)) < 0 := by
  have h : clean_numeric_value (.num ((-1 : ℚ) / 2)) = 0 := by
    show pyInt ((-1 : ℚ) / 2) = 0
    rw [pyInt, if_neg (by norm_num), show ((-1 : ℚ) / 2) = -(1 / 2) by norm_num,
      Int.ceil_neg]
    norm_num
  refine ⟨by norm_num, h, by rw [h]; decide⟩

/-- C10 amended: for every parseable numeric or numeric-string input with
a negative value q, `clean_numeric_value` returns the truncation of q
toward zero with no clamping to the non-negative range: the result n
satisfies q ≤ n ≤ 0 and n - 1 < q, and n is strictly negative whenever
q ≤ -1 (values in (-1,0) truncate to 0). -/
theorem clean_numeric_value_negative (q : ℚ) (hq : q < 0) :
    (q ≤ (clean_numeric_value (.num q) : ℚ)
      ∧ clean_numeric_value (.num q) ≤ 0
      ∧ (clean_numeric_value (.num q) : ℚ) - 1 < q)
    ∧ (q ≤ -1 → clean_numeric_value (.num q) < 0)
    ∧ (∀ s : String, parseFloat (stripCommas s) = some q →
        clean_numeric_value (.str s) = clean_numeric_value (.num q)) := by
  have hpy : clean_numeric_value (.num q) = ⌈q⌉ := by
    show pyInt q = ⌈q⌉
    rw [pyInt, if_neg (not_le.mpr hq)]
  refine ⟨⟨?_, ?_, ?_⟩, ?_, fun s h => clean_numeric_value_spec.2.2.2.1 s q h⟩
  · rw [hpy]
    exact Int.le_ceil q
  · rw [hpy]
    exact Int.ceil_le.mpr (by exact_mod_cast hq.le)
  · rw [hpy]
    have := Int.ceil_lt_add_one q
    linarith
  · intro h1
    rw [hpy]
    have h2 : ⌈q⌉ ≤ ⌈((-1 : ℤ) : ℚ)⌉ := Int.ceil_le_ceil (by exact_mod_cast h1)
    rw [Int.ceil_intCast] at h2
    omega

/-- Witness for C10 amended at q = -5/2 (reached both as a number and as
the string "-2.5"): the coercion returns -2, a negative integer with no
clamping. -/
theorem clean_numeric_value_negative_witness :
    ((-5 : ℚ) / 2) < 0 ∧ ((-5 : ℚ) / 2) ≤ -1
    ∧ parseFloat (stripCommas "-2.5") = some ((-5 : ℚ) / 2)
    ∧ clean_numeric_value (.num ((-5 : ℚ) / 2)) < 0
    ∧ clean_numeric_value (.str "-2.5") = clean_numeric_value (.num ((-5 : ℚ) / 2)) := by
  have hq : ((-5 : ℚ) / 2) < 0 := by norm_num
  have hps : parseFloat (stripCommas "-2.5") = some ((-5 : ℚ) / 2) := by
    simp +decide [parseFloat, stripCommas, stripSpaces, parseSign, digitsVal]
    norm_num
  have h := clean_numeric_value_negative ((-5 : ℚ) / 2) hq
  exact ⟨hq, by norm_num, hps, h.2.1 (by norm_num), h.2.2 "-2.5" hps⟩

/-- C4: every reconciliation comparison in the source (dataset-level and
per-creator) goes through the tolerance predicate
`tolMatches a b = (abs (a - b) < 1)`; the flag is true iff the absolute
difference is strictly below 1, and a difference of exactly 1 yields
false. -/
theorem tolMatches_spec (a b : ℚ) :
    (tolMatches a b = true ↔ |a - b| < 1) ∧ (|a - b| = 1 → tolMatches a b = false) := by
  constructor
  · exact decide_eq_true_iff
  · intro h
    simp [tolMatches, h]

/-- Witness for C4 at the boundary: declared 100 against computed 99
differ by exactly 1 and the flag is false, while 100 against computed
100.5 differ by 1/2 and the flag is true. -/
theorem tolMatches_spec_witness :
    |(100 : ℚ) - 99| = 1 ∧ tolMatches 100 99 = false
    ∧ |(100 : ℚ) - 201 / 2| < 1 ∧ tolMatches 100 (201 / 2) = true := by
  have h1 : |(100 : ℚ) - 99| = 1 := by norm_num
  have h2 : |(100 : ℚ) - 201 / 2| < 1 := by
    rw [show (100 : ℚ) - 201 / 2 = -(1 / 2) by norm_num, abs_neg]
    rw [abs_of_nonneg (by norm_num)]
    norm_num
  exact ⟨h1, (tolMatches_spec 100 99).2 h1, h2, (tolMatches_spec 100 (201 / 2)).1.mpr h2⟩

/-- C3: for every creator record set, the selection carried into the
spreadsheet and report has at most 50 line items apart from the synthetic
total row; the selected rows are the first 50 of a descending stable sort
by views (ties keep input order, stated as: filtering the sorted list to
any fixed view count returns exactly the input's rows with that count, in
input order); and the total row's views/gross/net equal the aggregates
over the creator's full record set, not the truncated one. -/
theorem selector_spec (cdata : List CRow) (rate : ℚ) :
    ((excelRowsOf cdata rate).dropLast).length ≤ 50
    ∧ (nlargest50 cdata).Pairwise (fun a b => b.views ≤ a.views)
    ∧ (∀ v : ℚ, (sortDesc cdata).filter (fun r => decide (r.views = v)) =
        cdata.filter (fun r => decide (r.views = v)))
    ∧ nlargest50 cdata = (sortDesc cdata).take 50
    ∧ (excelRowsOf cdata rate).getLast? = some (totalRowOf cdata rate)
    ∧ (totalRowOf cdata rate).views = (clean_numeric_value (.num (sumViews cdata)) : ℚ)
    ∧ (totalRowOf cdata rate).revenue = (clean_numeric_value (.num (sumRevenue cdata)) : ℚ)
    ∧ (totalRowOf cdata rate).revenueAfter =
        (pyInt ((clean_numeric_value (.num (sumRevenue cdata)) : ℚ) * rate) : ℚ) := by
  refine ⟨?_, ?_, filter_sortDesc cdata, rfl, ?_, rfl, rfl, rfl⟩
  · rw [excelRowsOf, List.dropLast_concat, lineItems, List.length_map]
    exact List.length_take_le 50 (sortDesc cdata)
  · exact (sorted_sortDesc cdata).sublist (List.take_sublist 50 (sortDesc cdata))
  · rw [excelRowsOf]
    exact List.getLast?_concat _

/-- Concrete creator record set used by the numerical counterexamples:
one row with gross revenue 997. -/
def oneRow997 : List CRow := [⟨"A", some "v", 0, 997⟩]

/-- C6 counterexample: with gross revenue 997 and commission rate 7/10
the source computes `int(997 * 0.7) = 697`, but rounding 697.9 gives 698,
so the computed net revenue is not `round(grossRevenue *
commissionRate)`. -/
theorem net_not_round :
    total_revenue_after_of oneRow997 (7 / 10) = 697
    ∧ round ((total_revenue_before_of oneRow997 : ℚ) * (7 / 10)) = 698
    ∧ total_revenue_after_of oneRow997 (7 / 10) ≠
        round ((total_revenue_before_of oneRow997 : ℚ) * (7 / 10)) := by
  have hb : total_revenue_before_of oneRow997 = 997 := by
    simp [total_revenue_before_of, clean_numeric_value, sumRevenue, oneRow997, pyInt]
  have ha : total_revenue_after_of oneRow997 (7 / 10) = 697 := by
    rw [total_revenue_after_of, hb]
    norm_num [pyInt]
  have hr : round ((total_revenue_before_of oneRow997 : ℚ) * (7 / 10)) = 698 := by
    rw [hb]
    norm_num [round_eq]
  exact ⟨ha, hr, by rw [ha, hr]; decide⟩

/-- C6 amended: for every creator record set and rate, the computed net
revenue `total_revenue_after` is the truncation toward zero of
grossRevenue * commissionRate (Python `int()`), not its rounding: it is
the floor for a non-negative product and the ceiling for a negative one,
and never exceeds the product in absolute value. -/
theorem net_truncation (cdata : List CRow) (rate : ℚ) :
    (0 ≤ (total_revenue_before_of cdata : ℚ) * rate →
      (total_revenue_after_of cdata rate : ℚ) ≤ (total_revenue_before_of cdata : ℚ) * rate
      ∧ (total_revenue_before_of cdata : ℚ) * rate < (total_revenue_after_of cdata rate : ℚ) + 1)
    ∧ ((total_revenue_before_of cdata : ℚ) * rate < 0 →
      (total_revenue_before_of cdata : ℚ) * rate ≤ (total_revenue_after_of cdata rate : ℚ)
      ∧ (total_revenue_after_of cdata rate : ℚ) - 1 < (total_revenue_before_of cdata : ℚ) * rate)
    ∧ |(total_revenue_after_of cdata rate : ℚ)| ≤
        |(total_revenue_before_of cdata : ℚ) * rate| := by
  refine ⟨fun h => ?_, fun h => ?_, abs_pyInt_le _⟩
  · rw [total_revenue_after_of, pyInt, if_pos h]
    refine ⟨Int.floor_le _, ?_⟩
    have := Int.lt_floor_add_one ((total_revenue_before_of cdata : ℚ) * rate)
    push_cast at this ⊢
    linarith
  · rw [total_revenue_after_of, pyInt, if_neg (not_le.mpr h)]
    refine ⟨Int.le_ceil _, ?_⟩
    have := Int.ceil_lt_add_one ((total_revenue_before_of cdata : ℚ) * rate)
    push_cast at this ⊢
    linarith

/-- Witness for C6 amended at gross 997 and rate 7/10: the product 697.9
is non-negative and the computed net 697 satisfies the floor bounds. -/
theorem net_truncation_witness :
    0 ≤ (total_revenue_before_of oneRow997 : ℚ) * (7 / 10)
    ∧ (total_revenue_after_of oneRow997 (7 / 10) : ℚ) ≤
        (total_revenue_before_of oneRow997 : ℚ) * (7 / 10)
    ∧ (total_revenue_before_of oneRow997 : ℚ) * (7 / 10) <
        (total_revenue_after_of oneRow997 (7 / 10) : ℚ) + 1 := by
  have hb : total_revenue_before_of oneRow997 = 997 := by
    simp [total_revenue_before_of, clean_numeric_value, sumRevenue, oneRow997, pyInt]
  have h0 : 0 ≤ (total_revenue_before_of oneRow997 : ℚ) * (7 / 10) := by
    rw [hb]
    norm_num
  have h := (net_truncation oneRow997 (7 / 10)).1 h0
  exact ⟨h0, h.1, h.2⟩

/-- Concrete table for the creator-level reconciliation check: a summary
first row and one data row of creator A with 100 views and revenue
1000. -/
def dfOneCreator : List Row :=
  [⟨"S", some "total", some 100, some 1000⟩, ⟨"A", some "v1", some 100, some 1000⟩]

/-- C1: `compare_creator_stats` does not consult its `processed_df`
argument; it recomputes both sides of the merge from the original data
rows, so the match flags are identities.  On the concrete table, passing
an empty processed set (total data loss) still produces a row with both
flags true and a "processed" views column equal to the original 100,
although the processed subset itself sums to 0. -/
theorem compare_ignores_processed :
    (∀ processed_df : List Row,
      compare_creator_stats dfOneCreator processed_df = compare_creator_stats dfOneCreator [])
    ∧ compare_creator_stats dfOneCreator [] = [⟨"A", 100, 100, 1000, 1000, true, true⟩]
    ∧ sumViewsRaw (([] : List Row).filter (fun r => decide (r.id = "A"))) = 0 := by
  refine ⟨fun processed_df => rfl, ?_, rfl⟩
  simp +decide [compare_creator_stats, calculate_creator_stats, uniqueIds, data_rows,
    sumViewsRaw, sumRevenueRaw, dfOneCreator, tolMatches]

/-- Concrete run in which the declared-summary first row carries the
creator id "A": one creator, the summary row (100 views, revenue 1000)
and one data row (60 views, revenue 600). -/
def envClash : Env :=
  ⟨[⟨"A", some "total", some 100, some 1000⟩, ⟨"A", some "v1", some 60, some 600⟩],
    ["A"], fun _ => 1 / 2, fun _ => none, false, fun _ => true, fun _ => true⟩

/-- C5: `process_data` filters the full input table (app.py line 366), so
when the first row's creator-id cell equals an existing creator id the
declared summary is included in that creator's aggregate: the exported
total views become 160 although the data rows of creator A only sum to
60. -/
theorem summary_included_in_aggregate :
    (process_data envClash).excels =
      [("A.xlsx", excelRowsOf (cdataOf envClash "A") (1 / 2))]
    ∧ total_views_of (cdataOf envClash "A") = 160
    ∧ sumViewsRaw ((data_rows envClash.df).filter (fun r => decide (r.id = "A"))) = 60 := by
  refine ⟨?_, ?_, ?_⟩
  · rw [process_data_eq]
    simp +decide [excelsOf, envClash]
  · simp +decide [total_views_of, clean_numeric_value, sumViews, cdataOf, fillna, envClash,
      pyInt]
  · simp +decide [sumViewsRaw, data_rows, envClash]

/-- Concrete run with one creator whose report renders but whose email
notification fails. -/
def envNotifyFail : Env :=
  ⟨[⟨"S", some "total", some 10, some 100⟩, ⟨"A", some "v1", some 10, some 100⟩],
    ["A"], fun _ => 1 / 2, fun _ => some "a@example.com", true, fun _ => true, fun _ => false⟩

/-- C2 counterexample: after a successful report generation, a recorded
notification failure leaves the report in the map and also appends the
creator to the failed list, so creator A appears in both. -/
theorem report_and_failed_overlap :
    (process_data envNotifyFail).reports.map Prod.fst = ["A_report.html"]
    ∧ (process_data envNotifyFail).failed = ["A"] := by
  rw [process_data_eq]
  constructor
  · simp +decide [reportsOf, envNotifyFail]
  · simp +decide [failsOf, envNotifyFail]

/-- C2 amended: a creator id can appear both as a key of the report map
and in the failed list: whenever a creator has data, its report renders,
emailing is enabled with an address on file, and the notification send
fails, the run keeps the generated report in the map and also records the
creator in the failed list. -/
theorem notify_failure_keeps_report (env : Env) (cid : String) (hmem : cid ∈ env.creators)
    (hdata : (env.df.filter (fun r => decide (r.id = cid))).isEmpty = false)
    (hrender : env.renderOk cid = true) (hsend : env.sendEmail = true)
    (hemail : (env.email cid).isSome = true) (hnotify : env.notifyOk cid = false) :
    (cid ++ "_report.html") ∈ (process_data env).reports.map Prod.fst
    ∧ cid ∈ (process_data env).failed := by
  rw [process_data_eq]
  constructor
  · have hr : reportsOf env cid = [(cid ++ "_report.html", reportDataOf env cid)] := by
      unfold reportsOf
      rw [if_neg (by simp [hdata]), if_pos hrender]
    refine List.mem_map.mpr ⟨(cid ++ "_report.html", reportDataOf env cid), ?_, rfl⟩
    exact List.mem_flatMap.mpr ⟨cid, hmem, by rw [hr]; exact List.mem_singleton.mpr rfl⟩
  · have hf : failsOf env cid = [cid] := by
      unfold failsOf
      rw [if_neg (by simp [hdata]), if_pos (by simp [hsend, hemail, hrender, hnotify])]
    exact List.mem_flatMap.mpr ⟨cid, hmem, by rw [hf]; exact List.mem_singleton.mpr rfl⟩

/-- Witness for C2 amended at the concrete run `envNotifyFail`. -/
theorem notify_failure_keeps_report_witness :
    ("A_report.html") ∈ (process_data envNotifyFail).reports.map Prod.fst
    ∧ "A" ∈ (process_data envNotifyFail).failed := by
  have h := notify_failure_keeps_report envNotifyFail "A" (by decide) (by decide) rfl rfl
    rfl rfl
  exact h

/-- Concrete run with one creator that has data but whose report
rendering fails, with emailing disabled. -/
def envRenderFail : Env :=
  ⟨[⟨"S", some "total", some 10, some 100⟩, ⟨"A", some "v1", some 10, some 100⟩],
    ["A"], fun _ => 1 / 2, fun _ => none, false, fun _ => false, fun _ => true⟩

/-- C7 counterexample: creator A's report rendering fails, yet the failed
list of the run is empty (and no report is produced): a render failure is
not recorded as a per-creator failure. -/
theorem render_failure_not_recorded :
    (process_data envRenderFail).failed = [] ∧ (process_data envRenderFail).reports = [] := by
  rw [process_data_eq]
  constructor
  · simp +decide [failsOf, envRenderFail]
  · simp +decide [reportsOf, envRenderFail]

/-- Concrete run over two creators where A's rendering fails and B's
succeeds, with emailing disabled. -/
def envRenderMix : Env :=
  ⟨[⟨"S", some "total", some 10, some 100⟩, ⟨"A", some "v1", some 10, some 100⟩,
      ⟨"B", some "v2", some 20, some 200⟩],
    ["A", "B"], fun _ => 1 / 2, fun _ => none, false, fun c => decide (c = "B"),
    fun _ => true⟩

/-- C7 amended: failures raised inside the per-creator loop are isolated
and recorded — a creator with no rows is appended to the failed list and
the run continues, and any other creator with data and working rendering
still gets its report — but a creator whose report rendering fails is not
recorded as failed (with emailing disabled it is simply left out of the
report map and out of the failed list, because `generate_html_report`
swallows the exception and returns None). -/
theorem per_creator_failure_handling (env : Env) (cid : String) (hmem : cid ∈ env.creators) :
    ((env.df.filter (fun r => decide (r.id = cid))).isEmpty = true →
      cid ∈ (process_data env).failed)
    ∧ (env.sendEmail = false →
        (env.df.filter (fun r => decide (r.id = cid))).isEmpty = false →
        env.renderOk cid = false →
          (cid ++ "_report.html") ∉ (process_data env).reports.map Prod.fst
          ∧ cid ∉ (process_data env).failed)
    ∧ (∀ c ∈ env.creators,
        (env.df.filter (fun r => decide (r.id = c))).isEmpty = false →
        env.renderOk c = true →
          (c ++ "_report.html") ∈ (process_data env).reports.map Prod.fst) := by
  rw [process_data_eq]
  refine ⟨fun hempty => ?_, fun hsend hdata hrender => ⟨?_, ?_⟩, fun c hc hdata hrender => ?_⟩
  · have hf : failsOf env cid = [cid] := by
      unfold failsOf
      rw [if_pos hempty]
    exact List.mem_flatMap.mpr ⟨cid, hmem, by rw [hf]; exact List.mem_singleton.mpr rfl⟩
  · intro hk
    obtain ⟨kv, hkv, hfst⟩ := List.mem_map.mp hk
    obtain ⟨c, hc, hkvc⟩ := List.mem_flatMap.mp hkv
    have hkey := reportsOf_key env c kv hkvc
    have hceq : c = cid := append_cancel_suffix (by rw [← hkey, hfst])
    subst hceq
    unfold reportsOf at hkvc
    rw [if_neg (by simp [hdata]), if_neg (by simp [hrender])] at hkvc
    simp at hkvc
  · intro hk
    obtain ⟨c, hc, hkc⟩ := List.mem_flatMap.mp hk
    have hceq := failsOf_subset env c cid hkc
    subst hceq
    unfold failsOf at hkc
    rw [if_neg (by simp [hdata]), if_neg (by simp [hsend])] at hkc
    simp at hkc
  · have hr : reportsOf env c = [(c ++ "_report.html", reportDataOf env c)] := by
      unfold reportsOf
      rw [if_neg (by simp [hdata]), if_pos hrender]
    refine List.mem_map.mpr ⟨(c ++ "_report.html", reportDataOf env c), ?_, rfl⟩
    exact List.mem_flatMap.mpr ⟨c, hc, by rw [hr]; exact List.mem_singleton.mpr rfl⟩

/-- Witness for C7 amended at the concrete run `envRenderMix`: A's key is
absent from the reports and A is not failed, while B's report is
present. -/
theorem per_creator_failure_handling_witness :
    ("A_report.html") ∉ (process_data envRenderMix).reports.map Prod.fst
    ∧ "A" ∉ (process_data envRenderMix).failed
    ∧ ("B_report.html") ∈ (process_data envRenderMix).reports.map Prod.fst := by
  have h := per_creator_failure_handling envRenderMix "A" (by decide)
  have h2 := h.2.1 rfl (by decide) (by decide)
  exact ⟨h2.1, h2.2, h.2.2 "B" (by decide) (by decide) (by decide)⟩

/-- C8: a creator with zero matching rows is appended to the failed list
exactly once (given that it occurs exactly once in the directory), never
reaches the report map or the spreadsheet map, and the final progress
entry of the run is still total/total. -/
theorem zero_rows_spec (env : Env) (cid : String)
    (hcount : env.creators.count cid = 1)
    (hempty : (env.df.filter (fun r => decide (r.id = cid))).isEmpty = true) :
    (process_data env).failed.count cid = 1
    ∧ (cid ++ "_report.html") ∉ (process_data env).reports.map Prod.fst
    ∧ (cid ++ ".xlsx") ∉ (process_data env).excels.map Prod.fst
    ∧ (process_data env).progress.getLast? =
        some (env.creators.length, env.creators.length) := by
  have hf : failsOf env cid = [cid] := by
    unfold failsOf
    rw [if_pos hempty]
  rw [process_data_eq]
  refine ⟨?_, ?_, ?_, ?_⟩
  · rw [count_flatMap_failsOf, hcount, hf]
    rfl
  · intro hk
    obtain ⟨kv, hkv, hfst⟩ := List.mem_map.mp hk
    obtain ⟨c, hc, hkvc⟩ := List.mem_flatMap.mp hkv
    have hkey := reportsOf_key env c kv hkvc
    have hceq : c = cid := append_cancel_suffix (by rw [← hkey, hfst])
    subst hceq
    unfold reportsOf at hkvc
    rw [if_pos hempty] at hkvc
    simp at hkvc
  · intro hk
    obtain ⟨kv, hkv, hfst⟩ := List.mem_map.mp hk
    obtain ⟨c, hc, hkvc⟩ := List.mem_flatMap.mp hkv
    have hkey := excelsOf_key env c kv hkvc
    have hceq : c = cid := append_cancel_suffix (by rw [← hkey, hfst])
    subst hceq
    unfold excelsOf at hkvc
    rw [if_pos hempty] at hkvc
    simp at hkvc
  · exact List.getLast?_concat _

/-- Concrete run over creators A and B where B has no rows in the
table. -/
def envNoRows : Env :=
  ⟨[⟨"S", some "total", some 10, some 100⟩, ⟨"A", some "v1", some 10, some 100⟩],
    ["A", "B"], fun _ => 1 / 2, fun _ => none, false, fun _ => true, fun _ => true⟩

/-- Witness for C8 at the concrete run `envNoRows`: B is failed exactly
once, absent from both maps, and the final progress entry is 2/2. -/
theorem zero_rows_spec_witness :
    (process_data envNoRows).failed.count "B" = 1
    ∧ ("B_report.html") ∉ (process_data envNoRows).reports.map Prod.fst
    ∧ ("B.xlsx") ∉ (process_data envNoRows).excels.map Prod.fst
    ∧ (process_data envNoRows).progress.getLast? = some (2, 2) := by
  exact zero_rows_spec envNoRows "B" (by decide) (by decide)

end Excel2Report
